import Mathlib

/-!
Verification development for the go-syndication feed library.

The definitions below are a shallow embedding of the library's Go source:

* `src/parser.go` — `NewFeedFromBytes`, `parseFeedURL`, `discoverFeedURL`,
  `isMimeType`, `parseSource`;
* `src/atom/atom.go`, `src/atom/entry.go` and the atom feed accessors —
  `PersonConstruct.String`, `Entry.GetAuthors`, `Feed.GetAuthors`,
  `Feed.Validate`;
* `src/rss/item.go`, `src/rss/rss.go` — `Item.GetUpdatedDate`,
  `Channel.GetSourceURL`;
* the jsonfeed accessors — `Item.GetUpdatedDate`, `Feed.GetUpdatedDate`;
* `src/types/types.go` — the MIME type tables.

Go strings are Lean `String`s (manipulated through their character lists so
that every definition evaluates inside the kernel), `time.Time` instants are
`Int` values (Unix time; `time.Unix(0, 0)` is `0`, `time.After` is `>`),
pointers that may be `nil` are `Option`, and fallible calls return `Except`.
External collaborators (the HTTP client, the XML/JSON unmarshalers, the HTML
tokenizer, the struct-tag validator, the text sanitizer) enter as explicit
oracle parameters; everything the claims quantify over is the library's own
logic, translated clause by clause from the source.
-/

/-! ## Character-list string utilities

Kernel-evaluable counterparts of the Go standard-library string helpers the
parser uses (`bytes.Contains`, `strings.HasSuffix`, `mime.ParseMediaType`).
-/

/-- Does `pat` occur at the head of `hay`? (helper for `bytes.Contains`). -/
def subAt : List Char → List Char → Bool
  | [], _ => true
  | _ :: _, [] => false
  | p :: ps, c :: cs => p == c && subAt ps cs

/-- `bytes.Contains hay pat` over character lists. -/
def hasSub : List Char → List Char → Bool
  | [], pat => pat.isEmpty
  | c :: cs, pat => subAt pat (c :: cs) || hasSub cs pat

/-- `bytes.Contains` on strings: does `s` contain `pat` as a substring? -/
def containsSub (s pat : String) : Bool :=
  hasSub s.data pat.data

/-- `strings.HasSuffix s pat`. -/
def endsWithStr (s pat : String) : Bool :=
  let n := s.data
  let p := pat.data
  if p.length ≤ n.length then n.drop (n.length - p.length) == p else false

/-- Strip leading and trailing spaces (whitespace trimming as performed by
`mime.ParseMediaType`; the media types in this development only ever carry
plain spaces). -/
def trimWS (l : List Char) : List Char :=
  ((l.dropWhile (· == ' ')).reverse.dropWhile (· == ' ')).reverse

/-- Model of Go `mime.ParseMediaType`: take the media-type token before any
`;`-separated parameter, trim whitespace, lowercase it; fail on an empty
token.  (The real function also validates the token characters; the header
values in this development are all plain tokens.) -/
def parseMediaType (s : String) : Option String :=
  let base := s.data.takeWhile (· ≠ ';')
  let lowered := (trimWS base).map Char.toLower
  if lowered.isEmpty then none else some (String.mk lowered)

/-! ## MIME type tables (`src/types/types.go`) -/

/-- `types.MimeTypesRSS`. -/
def MimeTypesRSS : List String := ["application/rss+xml", "application/rdf+xml"]

/-- `types.MimeTypesAtom`. -/
def MimeTypesAtom : List String := ["application/atom+xml"]

/-- `types.MimeTypesIndeterminate`. -/
def MimeTypesIndeterminate : List String := ["application/xml", "text/xml"]

/-- `types.MimeTypesJSONFeed`. -/
def MimeTypesJSONFeed : List String := ["application/feed+json", "application/json"]

/-- `types.MimeTypesFeed = slices.Concat(MimeTypesAtom, MimeTypesRSS, MimeTypesIndeterminate)`. -/
def MimeTypesFeed : List String := MimeTypesAtom ++ MimeTypesRSS ++ MimeTypesIndeterminate

/-- `types.MimeTypesHTML`. -/
def MimeTypesHTML : List String := ["text/html", "application/xhtml+xml"]

/-- `isMimeType` from `src/parser.go`: parse the Content-Type header's media
type and test membership in the given table. -/
def isMimeType (content : String) (mimeTypes : List String) : Bool :=
  match parseMediaType content with
  | none => false
  | some mediatype => mimeTypes.contains mediatype

/-! ## Atom person constructs (`src/atom/atom.go`) -/

/-- `atom.PersonConstruct`: the name is always present; email and URI are
optional sub-elements (`nil` pointers become `none`; a present element with
an empty value is `some ""`). -/
structure PersonConstruct where
  name : String
  email : Option String
  uri : Option String
deriving DecidableEq, Repr

/-- `(*PersonConstruct).String` from `src/atom/atom.go` lines 29–39: write the
name, append `" (email)"` when a non-empty email is present, then append
`" uri"` when a non-empty URI is present. -/
def personString (p : PersonConstruct) : String :=
  let v := p.name
  let v := match p.email with
    | some e => if e ≠ "" then v ++ " (" ++ e ++ ")" else v
    | none => v
  match p.uri with
  | some u => if u ≠ "" then v ++ " " ++ u else v
  | none => v

/-! ## Date model (`src/types/dates.go`, `src/rss/item.go`, jsonfeed items) -/

/-- `types.UnixEpoch = time.Unix(0, 0)` as an integer Unix time. -/
def unixEpoch : Int := 0

/-- `rss.Item` restricted to the fields its date accessors read: `PubDate`
is a nullable `DateTime`. -/
structure RssItem where
  pubDate : Option Int
deriving DecidableEq, Repr

/-- `(*rss.Item).GetPublishedDate`: the `<pubDate>` value, or Unix epoch when
absent. -/
def rssItemGetPublishedDate (i : RssItem) : Int :=
  match i.pubDate with
  | some t => t
  | none => unixEpoch

/-- `(*rss.Item).GetUpdatedDate` delegates to `GetPublishedDate`
(`src/rss/item.go` lines 150–152). -/
def rssItemGetUpdatedDate (i : RssItem) : Int :=
  rssItemGetPublishedDate i

/-- `jsonfeed.Item` restricted to its date fields (`DatePublished`,
`DateModified` are nullable). -/
structure JsonItem where
  datePublished : Option Int
  dateModified : Option Int
deriving DecidableEq, Repr

/-- `(*jsonfeed.Item).GetPublishedDate`. -/
def jsonItemGetPublishedDate (i : JsonItem) : Int :=
  match i.datePublished with
  | some t => t
  | none => unixEpoch

/-- `(*jsonfeed.Item).GetUpdatedDate`: `DateModified` or Unix epoch. -/
def jsonItemGetUpdatedDate (i : JsonItem) : Int :=
  match i.dateModified with
  | some t => t
  | none => unixEpoch

/-- `jsonfeed.Feed` restricted to the fields used here: `FeedURL` (nullable)
and the item list. -/
structure JsonFeed where
  feedURL : Option String
  items : List JsonItem
deriving DecidableEq, Repr

/-- `(*jsonfeed.Feed).GetUpdatedDate`: start from Unix epoch and take any
item whose updated date lies strictly after the current candidate
(`time.Time.After` is a strict comparison). -/
def jsonFeedGetUpdatedDate (f : JsonFeed) : Int :=
  f.items.foldl
    (fun modified it =>
      if jsonItemGetUpdatedDate it > modified then jsonItemGetUpdatedDate it else modified)
    unixEpoch

/-- The claim's reading of the feed-level update date: the maximum of the
items' updated dates alone, epoch only when there are no dated items.  Stated
from the claim's words, for comparison with `jsonFeedGetUpdatedDate`. -/
def claimItemsUpdatedMax (f : JsonFeed) : Int :=
  match f.items.map jsonItemGetUpdatedDate with
  | [] => unixEpoch
  | d :: ds => ds.foldl max d

/-! ## Atom feed model (`src/atom/entry.go`, atom feed accessors) -/

/-- `atom.LinkRelSelf`. -/
def LinkRelSelf : String := "self"

/-- `atom.LinkRelAlternate`. -/
def LinkRelAlternate : String := "alternate"

/-- `atom.Link` restricted to the attributes read here. -/
structure ALink where
  href : String
  rel : String
  typeAttr : String
deriving DecidableEq, Repr

/-- `atom.Entry` restricted to the fields its author accessor reads:
`Authors` (person constructs) and the optional `DCCreator` element. -/
structure AtomEntry where
  authors : List PersonConstruct
  dcCreator : Option String
deriving DecidableEq, Repr

/-- `(*atom.Entry).GetAuthors` (`src/atom/entry.go` lines 59–70): the
stringified `Authors`, then the sanitized `DCCreator` value when present.
`san` is the external sanitizer used by `DCCreator.String`. -/
def entryGetAuthors (san : String → String) (e : AtomEntry) : List String :=
  (e.authors.map personString) ++
    (match e.dcCreator with
     | some c => [san c]
     | none => [])

/-- `atom.Feed` restricted to the fields used by the claims: feed-level
authors, `DCCreator`, the entry list, and the `<link>` elements. -/
structure AtomFeed where
  authors : List PersonConstruct
  dcCreator : Option String
  entries : List AtomEntry
  links : List ALink
deriving DecidableEq, Repr

/-- `(*atom.Feed).GetAuthors`: stringified feed-level `Authors`, then the
sanitized `DCCreator` value when present. -/
def atomFeedGetAuthors (san : String → String) (f : AtomFeed) : List String :=
  (f.authors.map personString) ++
    (match f.dcCreator with
     | some c => [san c]
     | none => [])

/-- `(*atom.Feed).GetItems` collects the entries (as item sources). -/
def atomFeedGetItems (f : AtomFeed) : List AtomEntry :=
  f.entries

/-- `(*atom.Feed).GetSourceURL`: the href of the first `<link>` with
`rel="self"` and an Atom media type, else the empty string. -/
def atomFeedGetSourceURL (f : AtomFeed) : String :=
  match f.links.find? (fun l =>
      (l.rel ≠ "" && l.rel == LinkRelSelf) &&
      (l.typeAttr ≠ "" && MimeTypesAtom.contains l.typeAttr)) with
  | some l => l.href
  | none => ""

/-- `(*atom.Feed).SetSourceURL`: append a `rel="self"` link carrying
`types.MimeTypesAtom[0]`. -/
def atomFeedSetSourceURL (f : AtomFeed) (url : String) : AtomFeed :=
  { f with links := f.links ++ [⟨url, LinkRelSelf, "application/atom+xml"⟩] }

/-- The two ways feed validation can fail in this development: the atom
cross-entity author rule, or a struct-tag validation failure reported by the
external `go-playground` validator. -/
inductive ValidationIssue where
  | authorRule
  | structTags
deriving DecidableEq, Repr

/-- `(*atom.Feed).Validate` (atom feed accessors, lines 188–209): fail with
the author rule when the feed has no authors and some entry (via `GetItems`)
has none either; otherwise defer to the external struct-tag validator `sv`
(`validation.Validate.Struct`). -/
def atomFeedValidate (san : String → String) (sv : AtomFeed → Bool)
    (f : AtomFeed) : Option ValidationIssue :=
  let missingEntryAuthors :=
    (atomFeedGetItems f).any (fun e => (entryGetAuthors san e).length == 0)
  if (atomFeedGetAuthors san f).length == 0 && missingEntryAuthors then
    some .authorRule
  else if sv f then none else some .structTags

/-! ## RSS feed model (`src/rss/rss.go`, restricted to the wrapper's needs) -/

/-- `rss.Channel` restricted to the fields read here: the `<atom:link>`
(nullable `rel`, href) used by the source-URL accessors, the channel dates,
and the items. -/
structure RssChannel where
  atomLinkRel : Option String
  atomLinkHref : String
  pubDate : Option Int
  lastBuildDate : Option Int
  items : List RssItem
deriving DecidableEq, Repr

/-- `rss.RSS` wraps a channel. -/
structure RssFeed where
  channel : RssChannel
deriving DecidableEq, Repr

/-- `(*rss.Channel).GetSourceURL`: the `<atom:link>` href when its `rel`
attribute is present and equals `"self"`, else the empty string; `(*rss.RSS)`
delegates to the channel. -/
def rssFeedGetSourceURL (r : RssFeed) : String :=
  match r.channel.atomLinkRel with
  | some rel => if rel == LinkRelSelf then r.channel.atomLinkHref else ""
  | none => ""

/-- `(*rss.Channel).SetSourceURL`: replace the `<atom:link>` with a
`rel="self"` link to the URL. -/
def rssFeedSetSourceURL (r : RssFeed) (url : String) : RssFeed :=
  { channel := { r.channel with atomLinkRel := some LinkRelSelf, atomLinkHref := url } }

/-- `(*jsonfeed.Feed).GetSourceURL`: the `FeedURL` value or empty. -/
def jsonFeedGetSourceURL (j : JsonFeed) : String :=
  match j.feedURL with
  | some u => u
  | none => ""

/-- `(*jsonfeed.Feed).SetSourceURL` stores the URL in `FeedURL`. -/
def jsonFeedSetSourceURL (j : JsonFeed) (url : String) : JsonFeed :=
  { j with feedURL := some url }

/-! ## The tagged-union `Feed` wrapper (`feeds` package) -/

/-- The concrete payload of a `feeds.Feed`: exactly one of `*rss.RSS`,
`*atom.Feed`, `*jsonfeed.Feed` (the `types.FeedSource` implementations). -/
inductive SourceVal where
  | rss (r : RssFeed)
  | atom (a : AtomFeed)
  | json (j : JsonFeed)
deriving DecidableEq, Repr

/-- `SourceType` constant `TypeRSS`. -/
def TypeRSS : String := "RSS"

/-- `SourceType` constant `TypeAtom`. -/
def TypeAtom : String := "Atom"

/-- `SourceType` constant `TypeJSONFeed`. -/
def TypeJSONFeed : String := "JSONFeed"

/-- `parseSource` from `src/parser.go` lines 415–424: a type switch with
cases for `*atom.Feed` and `*rss.RSS` only; every other payload — including
`*jsonfeed.Feed` — falls to the default branch and yields the empty string. -/
def parseSource (source : SourceVal) : String :=
  match source with
  | .atom _ => TypeAtom
  | .rss _ => TypeRSS
  | _ => ""

/-- `feeds.Feed`: the embedded `types.FeedSource` payload plus the
`SourceType` tag. -/
structure FeedW where
  source : SourceVal
  sourceType : String
deriving DecidableEq, Repr

/-- The external oracles a decode needs: the sanitizer and the per-type
struct-tag validators (`validation.Validate.Struct` on the generated
structs). -/
structure Oracles where
  san : String → String
  svAtom : AtomFeed → Bool
  svRss : RssFeed → Bool
  svJson : JsonFeed → Bool

/-- `Validate` dispatched through the embedded payload: the atom feed runs
its custom author rule then struct validation; RSS and JSONFeed run struct
validation only (`src/rss/rss.go` lines 85–90, jsonfeed accessors). -/
def feedValidate (O : Oracles) (f : FeedW) : Option ValidationIssue :=
  match f.source with
  | .atom a => atomFeedValidate O.san O.svAtom a
  | .rss r => if O.svRss r then none else some .structTags
  | .json j => if O.svJson j then none else some .structTags

/-- `GetSourceURL` promoted from the embedded payload. -/
def feedGetSourceURL (f : FeedW) : String :=
  match f.source with
  | .atom a => atomFeedGetSourceURL a
  | .rss r => rssFeedGetSourceURL r
  | .json j => jsonFeedGetSourceURL j

/-- `SetSourceURL` promoted from the embedded payload. -/
def feedSetSourceURL (f : FeedW) (url : String) : FeedW :=
  match f.source with
  | .atom a => { f with source := .atom (atomFeedSetSourceURL a url) }
  | .rss r => { f with source := .rss (rssFeedSetSourceURL r url) }
  | .json j => { f with source := .json (jsonFeedSetSourceURL j url) }

/-- Errors surfaced by `NewFeedFromBytes` and `parseFeedURL`
(`ErrParseBytes` / `ErrParseURL` wrappings, by cause). -/
inductive ParseError where
  | parseBytesDecode
  | parseBytesInvalid (v : ValidationIssue)
  | parseURLTransport
  | parseURLStatus
  | parseURLNoContentType
  | unsupportedFormat (contentType : String)
deriving DecidableEq, Repr

/-- `NewFeedFromBytes` (`src/parser.go` lines 65–95) after the external
unmarshal step: on a decode error, wrap it in `ErrParseBytes`; otherwise
build the `Feed` around the decoded payload, tag it via `parseSource`, run
`Validate`, and on a validation failure return `nil` and the wrapped
validation error — the decoded feed is dropped.  `decoded` is the outcome of
the format-specific `json.Unmarshal` / `Decode[T]` call. -/
def newFeedFromDecoded (O : Oracles) (decoded : Except Unit SourceVal) :
    Except ParseError FeedW :=
  match decoded with
  | .error _ => .error .parseBytesDecode
  | .ok original =>
    let feed : FeedW := { source := original, sourceType := parseSource original }
    match feedValidate O feed with
    | some v => .error (.parseBytesInvalid v)
    | none => .ok feed

/-- `NewFeedFromSource` (`src/parser.go` lines 99–105): wrap an existing
source value and tag it via `parseSource`; no validation. -/
def newFeedFromSource (source : SourceVal) : FeedW :=
  { source := source, sourceType := parseSource source }

/-! ## URL model (`net/url` as used by `discoverFeedURL`)

Go's `url.Parse` splits a string into scheme, host and path; it fails only on
control characters, which never occur in this development, so the model is
total but keeps the `Option` shape of the Go API.  `IsAbs` tests for a
non-empty scheme; `JoinPath("/", p)` roots a relative path.
-/

/-- A parsed URL: scheme, host, path. -/
structure GoURL where
  scheme : String
  host : String
  path : String
deriving DecidableEq, Repr

/-- Split `hay` around the first occurrence of `pat`, if any. -/
def breakSub : List Char → List Char → Option (List Char × List Char)
  | [], _ => none
  | c :: cs, pat =>
    if subAt pat (c :: cs) then some ([], (c :: cs).drop pat.length)
    else (breakSub cs pat).map (fun p => (c :: p.1, p.2))

/-- Model of `url.Parse`: an absolute URL is split at `"://"` into scheme,
host (up to the first `/`) and path; anything else is a relative URL whose
path is the whole string. -/
def goParseURL (s : String) : Option GoURL :=
  match breakSub s.data "://".data with
  | none => some ⟨"", "", s⟩
  | some (sch, rest) =>
    let host := rest.takeWhile (· ≠ '/')
    some ⟨String.mk sch, String.mk host, String.mk (rest.drop host.length)⟩

/-- `(*url.URL).IsAbs`: the scheme is non-empty. -/
def goIsAbs (u : GoURL) : Bool :=
  u.scheme ≠ ""

/-- `(*url.URL).String` for the URLs of this development. -/
def goURLString (u : GoURL) : String :=
  if u.scheme = "" then u.path else u.scheme ++ "://" ++ u.host ++ u.path

/-- `url.JoinPath("/", p)`: root the path. -/
def joinRootPath (p : String) : String :=
  if p.data.head? == some '/' then p else String.mk ('/' :: p.data)

/-! ## HTML token scan (`discoverFeedURL`, `src/parser.go` lines 309–402)

The `golang.org/x/net/html` tokenizer is external; the embedding works on the
token stream it produces.  A token is a self-closing tag, a start tag, or
anything else (text, end tags, comments, doctypes), each with its attribute
list in document order; the tokenizer's trailing `ErrorToken` (end of input
or a read error) is the end of the token list.
-/

/-- One HTML token, as consumed by the scan loop. -/
inductive Token where
  | selfClosingTag (tag : String) (attrs : List (String × String))
  | startTag (tag : String) (attrs : List (String × String))
  | otherToken
deriving DecidableEq, Repr

/-- What the loop body does with one token: skip it (`continue`), crash on
the out-of-range attribute index, or select an href to resolve. -/
inductive StepRes where
  | skip
  | panicIdx
  | select (href : String)
deriving DecidableEq, Repr

/-- `slices.IndexFunc(attrs, key == "href")` paired with the indexed value:
the index and value of the first `href` attribute. -/
def indexHref : List (String × String) → Option (Nat × String)
  | [] => none
  | a :: rest =>
    if a.1 == "href" then some (0, a.2)
    else (indexHref rest).map (fun p => (p.1 + 1, p.2))

/-- Index and value of the first attribute with key `href` and value ending
in `feed` (the anchor branch's `IndexFunc`). -/
def indexHrefFeed : List (String × String) → Option (Nat × String)
  | [] => none
  | a :: rest =>
    if a.1 == "href" && endsWithStr a.2 "feed" then some (0, a.2)
    else (indexHrefFeed rest).map (fun p => (p.1 + 1, p.2))

/-- The qualification test of the `<link>` branch: `rel="alternate"` with a
`type` in `types.MimeTypesFeed`, or an `href` attribute whose value is one of
the literal strings `"feed"`, `"rss"`, `"atom"` (`slices.Contains`, an exact
comparison). -/
def linkFoundAttrs (attrs : List (String × String)) : Bool :=
  (attrs.any (fun a => a.1 == "rel" && a.2 == "alternate") &&
   attrs.any (fun a => a.1 == "type" && MimeTypesFeed.contains a.2)) ||
  attrs.any (fun a => a.1 == "href" && (["feed", "rss", "atom"].contains a.2))

/-- One iteration of the scan loop of `discoverFeedURL`:

* a self-closing tag other than `<link>` is skipped; a `<link>` that fails
  `linkFoundAttrs` is skipped; otherwise the code looks up the first `href`
  attribute — `idx == 0` is skipped (`continue`), `idx == -1` passes that
  guard and the following `tkn.Attr[idx]` indexes out of range, and an index
  `≥ 1` selects the attribute's value;
* a start tag other than `<a>` is skipped; an `<a>` is selected when some
  `href` attribute ends in `feed` (the re-computed `IndexFunc` then finds it);
* every other token is skipped. -/
def tokenStep : Token → StepRes
  | .selfClosingTag tag attrs =>
    if tag == "link" then
      if linkFoundAttrs attrs then
        match indexHref attrs with
        | none => .panicIdx
        | some (0, _) => .skip
        | some (_ + 1, v) => .select v
      else .skip
    else .skip
  | .startTag tag attrs =>
    if tag == "a" then
      if attrs.any (fun a => a.1 == "href" && endsWithStr a.2 "feed") then
        match indexHrefFeed attrs with
        | none => .skip
        | some (_, v) => .select v
      else .skip
    else .skip
  | .otherToken => .skip

/-- How a scan can end without a URL. -/
inductive DiscError where
  | tokenErr
  | urlParseErr (val : String)
  | pageParseErr
  | panicIndexOutOfRange
deriving DecidableEq, Repr

/-- The tail of the loop body once an href has been selected: parse it; an
absolute URL is returned as is, a relative one is rooted and grafted onto the
page URL (`pageURL.Path = fullPath`). -/
def resolveFeedURL (pageURL : GoURL) (v : String) : Except DiscError String :=
  match goParseURL v with
  | none => .error (.urlParseErr v)
  | some u =>
    if goIsAbs u then .ok (goURLString u)
    else .ok (goURLString { pageURL with path := joinRootPath u.path })

/-- The scan loop of `discoverFeedURL` over the token stream: run `tokenStep`
on each token in order; the first selection is resolved and returned, the
out-of-range index aborts the scan, and exhausting the stream (the
tokenizer's `ErrorToken`) reports the tokenizer error. -/
def discoverTokens (pageURL : GoURL) : List Token → Except DiscError String
  | [] => .error .tokenErr
  | t :: ts =>
    match tokenStep t with
    | .skip => discoverTokens pageURL ts
    | .panicIdx => .error .panicIndexOutOfRange
    | .select v => resolveFeedURL pageURL v

/-- `discoverFeedURL` (`src/parser.go` lines 309–402): parse the page URL,
then scan the token stream of the content. -/
def discoverFeedURLTokens (path : String) (ts : List Token) : Except DiscError String :=
  match goParseURL path with
  | none => .error .pageParseErr
  | some pageURL => discoverTokens pageURL ts

/-- The selection a token contributes under the code's rules, as an
`Option` (used to state the first-match property). -/
def stepSelect (t : Token) : Option String :=
  match tokenStep t with
  | .select v => some v
  | _ => none

/-- The claim's qualification test for a self-closing `<link>`, stated from
the claim's words for comparison with `linkFoundAttrs`: clause (b) accepts an
`href` whose path merely *ends in* one of the suffixes `feed`, `rss`,
`atom`. -/
def claimLinkQualifies (attrs : List (String × String)) : Bool :=
  (attrs.any (fun a => a.1 == "rel" && a.2 == "alternate") &&
   attrs.any (fun a => a.1 == "type" && MimeTypesFeed.contains a.2)) ||
  attrs.any (fun a => a.1 == "href" &&
    (endsWithStr a.2 "feed" || endsWithStr a.2 "rss" || endsWithStr a.2 "atom"))

/-! ## The per-URL pipeline (`parseFeedURL`, `src/parser.go` lines 200–265)

The HTTP fetch, the per-format unmarshal calls and the HTML tokenizer are
external; a `World` packages them as oracles.  Recursion into a discovered
feed URL is fuel-bounded: the Go code has no depth guard, so running out of
fuel yields a separate `diverge` outcome rather than a result.
-/

/-- An HTTP response as `parseFeedURL` consumes it: `resp.IsError()`, the
`Content-Type` header (empty when the header is missing), and the body. -/
structure Response where
  statusIsError : Bool
  contentType : String
  body : String

/-- Outcome of `client.R().Get(url)`: a transport error or a response. -/
inductive FetchOut where
  | transportErr
  | resp (r : Response)

/-- The external collaborators of one pipeline run. -/
structure World where
  fetch : String → FetchOut
  decodeRss : String → Except Unit RssFeed
  decodeAtom : String → Except Unit AtomFeed
  decodeJson : String → Except Unit JsonFeed
  tokenize : String → List Token
  oracles : Oracles

/-- `feeds.FeedResult`: the URL, and the feed / error pair. -/
structure FeedResult where
  url : String
  feed : Option FeedW
  err : Option ParseError
deriving Repr

/-- What one pipeline run can do: return a `FeedResult`, crash (a nil
dereference or an out-of-range index), or exhaust the recursion fuel. -/
inductive Outcome where
  | result (r : FeedResult)
  | goPanic
  | diverge
deriving Repr

/-- `errors.Is(err, &validator.InvalidValidationError{})` as evaluated in the
indeterminate branch: `InvalidValidationError` defines no `Is` method, so
`errors.Is` falls back to comparing against the freshly allocated target
pointer, which never equals anything in `err`'s chain — the test is `false`
for every error this pipeline produces. -/
def errorsIsInvalidValidation (_ : ParseError) : Bool :=
  false

/-- The common tail of `parseFeedURL` (lines 254–264): a pending error turns
into an error result carrying the URL; otherwise the feed's source URL is
overwritten with the fetched URL when empty or different, and the feed is
returned.  (On the nil/nil fall-through this tail is never reached — see
`parseFeedURL`.) -/
def finishParse (url : String) : Except ParseError FeedW → Outcome
  | .error e => .result ⟨url, none, some e⟩
  | .ok feed =>
    let s := feedGetSourceURL feed
    let feed := if s = "" || s ≠ url then feedSetSourceURL feed url else feed
    .result ⟨url, some feed, none⟩

/-- `parseFeedURL` (`src/parser.go` lines 200–265).  Fetch the URL; fail with
a transport error, an empty-`URL` status-error result, or a missing
`Content-Type` error; otherwise dispatch on the media type:

* RSS / Atom / JSONFeed media types decode with the matching format;
* the indeterminate types sniff the body for `"<feed"` then `"<rss"` (the
  `errors.Is` guards on the early returns are never satisfied, see
  `errorsIsInvalidValidation`); when neither substring occurs, no case of the
  inner switch runs, both `feed` and `err` stay nil, and the tail dereferences
  the nil feed — a crash, not a result;
* an HTML media type runs `discoverFeedURL` and recurses on a discovered
  non-empty URL (a crash inside discovery propagates), otherwise falls
  through to the unsupported-format error, like every unrecognized type. -/
def parseFeedURL (W : World) : Nat → String → Outcome
  | 0, _ => .diverge
  | fuel + 1, url =>
    match W.fetch url with
    | .transportErr => .result ⟨url, none, some .parseURLTransport⟩
    | .resp resp =>
      if resp.statusIsError then .result ⟨"", none, some .parseURLStatus⟩
      else
        -- content := resp.Header().Get("Content-Type"), inlined below
        if resp.contentType = "" then .result ⟨url, none, some .parseURLNoContentType⟩
        else if isMimeType resp.contentType MimeTypesRSS then
          finishParse url (newFeedFromDecoded W.oracles ((W.decodeRss resp.body).map .rss))
        else if isMimeType resp.contentType MimeTypesAtom then
          finishParse url (newFeedFromDecoded W.oracles ((W.decodeAtom resp.body).map .atom))
        else if isMimeType resp.contentType MimeTypesIndeterminate then
          if containsSub resp.body "<feed" then
            match newFeedFromDecoded W.oracles ((W.decodeAtom resp.body).map .atom) with
            | .error e =>
              if errorsIsInvalidValidation e then .result ⟨"", none, some e⟩
              else finishParse url (.error e)
            | .ok feed => finishParse url (.ok feed)
          else if containsSub resp.body "<rss" then
            match newFeedFromDecoded W.oracles ((W.decodeRss resp.body).map .rss) with
            | .error e =>
              if errorsIsInvalidValidation e then .result ⟨"", none, some e⟩
              else finishParse url (.error e)
            | .ok feed => finishParse url (.ok feed)
          else .goPanic
        else if isMimeType resp.contentType MimeTypesJSONFeed then
          finishParse url (newFeedFromDecoded W.oracles ((W.decodeJson resp.body).map .json))
        else if isMimeType resp.contentType MimeTypesHTML then
          match discoverFeedURLTokens url (W.tokenize resp.body) with
          | .ok newURL =>
            if newURL ≠ "" then parseFeedURL W fuel newURL
            else .result ⟨url, none, some (.unsupportedFormat resp.contentType)⟩
          | .error .panicIndexOutOfRange => .goPanic
          | .error _ => .result ⟨url, none, some (.unsupportedFormat resp.contentType)⟩
        else .result ⟨url, none, some (.unsupportedFormat resp.contentType)⟩

/-- The condition under which the pipeline recurses: the fetched response is
HTML-classified and discovery returns a non-empty URL.  Mirrors the guard
cascade of `parseFeedURL`. -/
def htmlRedirect (W : World) (url : String) : Option String :=
  match W.fetch url with
  | .transportErr => none
  | .resp resp =>
    if resp.statusIsError then none
    else if resp.contentType = "" then none
    else if isMimeType resp.contentType MimeTypesRSS then none
    else if isMimeType resp.contentType MimeTypesAtom then none
    else if isMimeType resp.contentType MimeTypesIndeterminate then none
    else if isMimeType resp.contentType MimeTypesJSONFeed then none
    else if isMimeType resp.contentType MimeTypesHTML then
      match discoverFeedURLTokens url (W.tokenize resp.body) with
      | .ok newURL => if newURL ≠ "" then some newURL else none
      | .error _ => none
    else none

/-- `u` reaches `w` by following zero or more discovered feed URLs. -/
inductive Reaches (W : World) : String → String → Prop
  | refl (u : String) : Reaches W u u
  | step {u v w : String} : htmlRedirect W u = some v → Reaches W v w → Reaches W u w

/-! ## Concrete fixtures used by the witnesses and counterexamples -/

/-- Trivially accepting oracles: identity sanitizer, struct validation that
always passes. -/
def oraclesOK : Oracles :=
  ⟨id, fun _ => true, fun _ => true, fun _ => true⟩

/-- An atom feed with no feed-level authors whose sole entry also has no
authors: structurally decodable, but it violates the author rule. -/
def badAtom : AtomFeed :=
  ⟨[], none, [⟨[], none⟩], []⟩

/-- An atom feed with no feed-level authors whose sole entry carries one
author: the author rule is satisfied. -/
def goodAtom : AtomFeed :=
  ⟨[], none, [⟨[⟨"Jane Doe", none, none⟩], none⟩], []⟩

/-- A minimal structurally valid JSONFeed payload. -/
def jsonMinimal : JsonFeed :=
  ⟨none, []⟩

/-- A JSONFeed whose only item carries a modification date one second before
the Unix epoch. -/
def jsonPreEpoch : JsonFeed :=
  ⟨none, [⟨none, some (-1)⟩]⟩

/-- A world whose server always answers `Content-Type: application/xml` with
a body containing neither `<rss` nor `<feed`. -/
def worldAmbiguous : World :=
  ⟨fun _ => .resp ⟨false, "application/xml", "<html></html>"⟩,
   fun _ => .error (), fun _ => .error (), fun _ => .error (), fun _ => [], oraclesOK⟩

/-- A world whose server always answers with an HTTP error status. -/
def worldStatusError : World :=
  ⟨fun _ => .resp ⟨true, "text/html", ""⟩,
   fun _ => .error (), fun _ => .error (), fun _ => .error (), fun _ => [], oraclesOK⟩

/-- A world whose transport always fails. -/
def worldTransportError : World :=
  ⟨fun _ => .transportErr,
   fun _ => .error (), fun _ => .error (), fun _ => .error (), fun _ => [], oraclesOK⟩

/-- A page URL for the discovery fixtures. -/
def pageURLFixture : GoURL :=
  ⟨"http", "example.com", "/page"⟩

/-- A self-closing `<link rel="alternate" type="application/rss+xml">` with
no `href` attribute. -/
def linkNoHref : Token :=
  .selfClosingTag "link" [("rel", "alternate"), ("type", "application/rss+xml")]

/-- A self-closing `<link>` whose `href` path ends in the suffix `feed`
without being the literal string `feed`, and which carries no alternate/type
pair. -/
def linkSuffixHref : Token :=
  .selfClosingTag "link" [("rel", "stylesheet"), ("href", "/blog/feed")]

/-- The two-link fixture of the spec's first-match property: two qualifying
alternate links, hrefs not in first attribute position. -/
def twoLinkFixture : List Token :=
  [.selfClosingTag "link" [("rel", "alternate"), ("type", "application/rss+xml"), ("href", "/f1")],
   .selfClosingTag "link" [("rel", "alternate"), ("type", "application/rss+xml"), ("href", "/f2")]]

/-- The result of the transport-error world, used as the C5 witness input. -/
def transportResultFixture : FeedResult :=
  ⟨"http://e.invalid/feed", none, some .parseURLTransport⟩

/-! ## Helper lemmas -/

/-- Go's `if d.After(acc) { acc = d }` accumulator step is the binary max. -/
theorem if_gt_eq_max (a d : Int) : (if d > a then d else a) = max a d := by
  rcases le_or_lt d a with h | h
  · rw [if_neg (not_lt.2 h), max_eq_left h]
  · rw [if_pos h, max_eq_right h.le]

/-- Results of `finishParse` carry the URL it was given and exactly one of a
feed or an error. -/
theorem finishParse_result (url : String) (x : Except ParseError FeedW) (r : FeedResult)
    (h : finishParse url x = .result r) :
    r.url = url ∧
      ((∃ f, r.feed = some f ∧ r.err = none) ∨ (r.feed = none ∧ ∃ e, r.err = some e)) := by
  cases x with
  | error e =>
    simp only [finishParse, Outcome.result.injEq] at h
    subst h
    exact ⟨rfl, Or.inr ⟨rfl, e, rfl⟩⟩
  | ok f =>
    simp only [finishParse, Outcome.result.injEq] at h
    subst h
    exact ⟨rfl, Or.inl ⟨_, rfl, rfl⟩⟩

/-! ## C8 — author display strings -/

/-- C8 counterexample: a person construct with a URI yields
`"Name (email) uri"`, not `"Name (email)"` — something else *is* appended. -/
theorem personString_uri_appended_cx :
    personString ⟨"Jane Doe", some "jane@example.com", some "https://jd.example"⟩ =
      "Jane Doe (jane@example.com) https://jd.example" ∧
    personString ⟨"Jane Doe", some "jane@example.com", some "https://jd.example"⟩ ≠
      "Jane Doe (jane@example.com)" := by
  constructor
  · rfl
  · decide

/-- C8 (amended): the display string is the name; a non-empty email is
appended parenthesized after a space and omitted entirely when absent; a
non-empty URI is additionally appended after a space and omitted entirely
when absent. -/
theorem personString_format (n e u : String) (he : e ≠ "") (hu : u ≠ "") :
    personString ⟨n, none, none⟩ = n ∧
    personString ⟨n, some e, none⟩ = n ++ " (" ++ e ++ ")" ∧
    personString ⟨n, none, some u⟩ = n ++ " " ++ u ∧
    personString ⟨n, some e, some u⟩ = n ++ " (" ++ e ++ ")" ++ " " ++ u := by
  refine ⟨rfl, ?_, ?_, ?_⟩ <;> simp [personString, he, hu]

/-- C8 witness: the amended format at Jane Doe's person construct. -/
theorem personString_format_witness :
    ("jane@example.com" : String) ≠ "" ∧
    personString ⟨"Jane Doe", some "jane@example.com", none⟩ = "Jane Doe (jane@example.com)" ∧
    personString ⟨"Jane Doe", none, none⟩ = "Jane Doe" :=
  ⟨by decide,
   (personString_format "Jane Doe" "jane@example.com" "x" (by decide) (by decide)).2.1,
   (personString_format "Jane Doe" "jane@example.com" "x" (by decide) (by decide)).1⟩

/-! ## C6 — date sentinels and the feed-level update date -/

/-- C6 counterexample: a feed whose only item is dated one second before the
epoch has feed-level update date equal to the epoch, not the maximum of its
items' updated dates. -/
theorem jsonFeed_updated_pre_epoch_cx :
    jsonFeedGetUpdatedDate jsonPreEpoch = unixEpoch ∧
    claimItemsUpdatedMax jsonPreEpoch = -1 ∧
    jsonFeedGetUpdatedDate jsonPreEpoch ≠ claimItemsUpdatedMax jsonPreEpoch := by
  refine ⟨rfl, rfl, ?_⟩
  decide

/-- C6 (amended): items with no modification date normalize to the Unix
epoch, and the jsonfeed feed-level update date is the maximum of the Unix
epoch together with the items' updated dates (hence epoch when all items lack
one). -/
theorem updated_date_epoch_sentinel_and_max :
    (∀ i : RssItem, i.pubDate = none → rssItemGetUpdatedDate i = unixEpoch) ∧
    (∀ j : JsonItem, j.dateModified = none → jsonItemGetUpdatedDate j = unixEpoch) ∧
    (∀ f : JsonFeed,
      jsonFeedGetUpdatedDate f = (f.items.map jsonItemGetUpdatedDate).foldl max unixEpoch) := by
  refine ⟨?_, ?_, ?_⟩
  · intro i h
    simp [rssItemGetUpdatedDate, rssItemGetPublishedDate, h]
  · intro j h
    simp [jsonItemGetUpdatedDate, h]
  · intro f
    rw [jsonFeedGetUpdatedDate, List.foldl_map]
    congr 1
    funext acc it
    exact if_gt_eq_max acc (jsonItemGetUpdatedDate it)

/-- C6 witness: the sentinel and the max at concrete items and a concrete
feed. -/
theorem updated_date_epoch_sentinel_and_max_witness :
    rssItemGetUpdatedDate ⟨none⟩ = unixEpoch ∧
    jsonItemGetUpdatedDate ⟨some 5, none⟩ = unixEpoch ∧
    jsonFeedGetUpdatedDate ⟨none, [⟨none, some 7⟩, ⟨none, none⟩]⟩ =
      ([7, 0] : List Int).foldl max unixEpoch :=
  ⟨updated_date_epoch_sentinel_and_max.1 ⟨none⟩ rfl,
   updated_date_epoch_sentinel_and_max.2.1 ⟨some 5, none⟩ rfl,
   updated_date_epoch_sentinel_and_max.2.2 ⟨none, [⟨none, some 7⟩, ⟨none, none⟩]⟩⟩

/-! ## C10 — the missing-href crash in discovery -/

/-- C10: on a self-closing alternate link with no `href` attribute, the href
index lookup misses, the `idx == 0` guard does not catch the `-1`, and the
scan aborts on the out-of-range attribute access instead of reporting
not-found (the tokenizer-exhausted error). -/
theorem discover_missing_href_panics :
    discoverFeedURLTokens "http://example.com/page" [linkNoHref] =
      .error .panicIndexOutOfRange ∧
    (Except.error .panicIndexOutOfRange : Except DiscError String) ≠ .error .tokenErr ∧
    linkFoundAttrs [("rel", "alternate"), ("type", "application/rss+xml")] = true := by
  refine ⟨rfl, ?_, rfl⟩
  simp

/-! ## C4 — the SourceType tag -/

/-- C4: `parseSource` has no case for the jsonfeed payload, so a feed built
from a JSONFeed document is tagged with the empty string, not
`TypeJSONFeed`. -/
theorem parseSource_jsonfeed_empty_tag :
    parseSource (.json jsonMinimal) = "" ∧
    TypeJSONFeed = "JSONFeed" ∧
    newFeedFromDecoded oraclesOK (.ok (.json jsonMinimal)) = .ok ⟨.json jsonMinimal, ""⟩ ∧
    newFeedFromSource (.json jsonMinimal) = ⟨.json jsonMinimal, ""⟩ ∧
    ("" : String) ≠ TypeJSONFeed := by
  refine ⟨rfl, rfl, rfl, rfl, ?_⟩
  decide

/-! ## C1 — validation failure in NewFeedFromBytes -/

/-- C1 counterexample: a concrete payload that decodes structurally and
fails validation; `NewFeedFromBytes` returns an error carrying no feed — the
decoded value is dropped, not returned alongside the validation error. -/
theorem newFeedFromBytes_drops_decoded_feed_cx :
    atomFeedValidate id (fun _ => true) badAtom = some .authorRule ∧
    newFeedFromDecoded oraclesOK (.ok (.atom badAtom)) =
      .error (.parseBytesInvalid .authorRule) := by
  exact ⟨rfl, rfl⟩

/-- C1 (amended): whenever the decoded payload fails validation,
`NewFeedFromBytes` returns no feed and the error wrapping that validation
failure. -/
theorem newFeedFromBytes_validation_failure_returns_no_feed
    (O : Oracles) (src : SourceVal) (v : ValidationIssue)
    (h : feedValidate O ⟨src, parseSource src⟩ = some v) :
    newFeedFromDecoded O (.ok src) = .error (.parseBytesInvalid v) := by
  simp only [newFeedFromDecoded]
  rw [h]

/-- C1 witness: the amended behaviour at the concrete author-rule-violating
atom payload. -/
theorem newFeedFromBytes_validation_failure_returns_no_feed_witness :
    feedValidate oraclesOK ⟨.atom badAtom, parseSource (.atom badAtom)⟩ = some .authorRule ∧
    newFeedFromDecoded oraclesOK (.ok (.atom badAtom)) =
      .error (.parseBytesInvalid .authorRule) :=
  ⟨rfl, newFeedFromBytes_validation_failure_returns_no_feed oraclesOK (.atom badAtom) .authorRule rfl⟩

/-! ## C7 — the cross-entity author rule -/

/-- C7: when struct-tag validation passes, an atom feed with an empty
feed-level author list validates successfully exactly when every entry
carries at least one author; and when some entry has none, validation fails
with precisely the author-rule error. -/
theorem atomFeed_author_cross_rule (san : String → String) (sv : AtomFeed → Bool)
    (f : AtomFeed) (hsv : sv f = true) (hempty : atomFeedGetAuthors san f = []) :
    ((atomFeedValidate san sv f = none) ↔
      ∀ e ∈ atomFeedGetItems f, entryGetAuthors san e ≠ []) ∧
    ((∃ e ∈ atomFeedGetItems f, entryGetAuthors san e = []) →
      atomFeedValidate san sv f = some .authorRule) := by
  have hcond : ∀ e : AtomEntry,
      (((entryGetAuthors san e).length == 0) = true) ↔ entryGetAuthors san e = [] := by
    intro e
    simp [List.length_eq_zero]
  have hval : atomFeedValidate san sv f =
      if (atomFeedGetItems f).any (fun e => (entryGetAuthors san e).length == 0)
      then some .authorRule else none := by
    simp only [atomFeedValidate, hempty, hsv, List.length_nil]
    simp
  constructor
  · constructor
    · intro h e he hnil
      have hany : (atomFeedGetItems f).any
          (fun e => (entryGetAuthors san e).length == 0) = true :=
        List.any_eq_true.mpr ⟨e, he, (hcond e).mpr hnil⟩
      rw [hval, if_pos hany] at h
      cases h
    · intro hall
      have hany : ¬((atomFeedGetItems f).any
          (fun e => (entryGetAuthors san e).length == 0) = true) := by
        intro hany
        obtain ⟨e, he, hlen⟩ := List.any_eq_true.mp hany
        exact hall e he ((hcond e).mp hlen)
      rw [hval, if_neg hany]
  · rintro ⟨e, he, hnil⟩
    have hany : (atomFeedGetItems f).any
        (fun e => (entryGetAuthors san e).length == 0) = true :=
      List.any_eq_true.mpr ⟨e, he, (hcond e).mpr hnil⟩
    rw [hval, if_pos hany]

/-- C7 witness: a feed with no feed-level authors whose only entry has an
author validates successfully, and adding an author-less entry makes
validation fail on the author rule. -/
theorem atomFeed_author_cross_rule_witness :
    ((fun _ : AtomFeed => true) goodAtom = true) ∧
    atomFeedGetAuthors id goodAtom = [] ∧
    atomFeedValidate id (fun _ => true) goodAtom = none ∧
    atomFeedValidate id (fun _ => true) badAtom = some .authorRule :=
  ⟨rfl, rfl,
   (atomFeed_author_cross_rule id (fun _ => true) goodAtom rfl rfl).1.mpr (by decide),
   (atomFeed_author_cross_rule id (fun _ => true) badAtom rfl rfl).2 ⟨⟨[], none⟩, by decide, rfl⟩⟩

/-! ## C3 — feed-URL discovery selection -/

/-- C3 counterexample: a `<link>` whose `href` merely *ends in* `feed`
qualifies under the claim's suffix rule, yet the scan selects nothing — the
code compares the whole `href` against the literal strings `feed`, `rss`,
`atom`. -/
theorem discover_suffix_link_not_selected_cx :
    claimLinkQualifies [("rel", "stylesheet"), ("href", "/blog/feed")] = true ∧
    discoverFeedURLTokens "http://example.com/page" [linkSuffixHref] = .error .tokenErr := by
  exact ⟨rfl, rfl⟩

/-- C3 (amended): provided no scanned `<link>` both qualifies and lacks an
`href` attribute (the crash of C10), the scan returns the resolution of the
first token the loop selects — a self-closing `<link>` that either carries
`rel="alternate"` with a known feed media type or an `href` *equal* to
`feed`/`rss`/`atom`, skipped when its first `href` attribute is the
element's first attribute; or an `<a>` start tag with an `href` ending in
`feed` — and reaching the end of the stream without a selection reports the
tokenizer error. -/
theorem discoverFeedURL_first_match (pu : GoURL) (ts : List Token)
    (hp : ∀ t ∈ ts, tokenStep t ≠ .panicIdx) :
    discoverTokens pu ts =
      match ts.findSome? stepSelect with
      | none => .error .tokenErr
      | some v => resolveFeedURL pu v := by
  induction ts with
  | nil => rfl
  | cons t ts ih =>
    have ht : tokenStep t ≠ .panicIdx := hp t (List.mem_cons_self t ts)
    have hts : ∀ x ∈ ts, tokenStep x ≠ .panicIdx :=
      fun x hx => hp x (List.mem_cons_of_mem t hx)
    cases hstep : tokenStep t with
    | panicIdx => exact absurd hstep ht
    | skip =>
      have hsel : stepSelect t = none := by simp [stepSelect, hstep]
      calc discoverTokens pu (t :: ts) = discoverTokens pu ts := by
            simp [discoverTokens, hstep]
        _ = _ := by rw [ih hts, List.findSome?_cons, hsel]
    | select v =>
      have hsel : stepSelect t = some v := by simp [stepSelect, hstep]
      calc discoverTokens pu (t :: ts) = resolveFeedURL pu v := by
            simp [discoverTokens, hstep]
        _ = _ := by rw [List.findSome?_cons, hsel]

/-- C3 witness: the spec's two-link fixture — the first qualifying link
wins. -/
theorem discoverFeedURL_first_match_witness :
    (∀ t ∈ twoLinkFixture, tokenStep t ≠ .panicIdx) ∧
    discoverTokens pageURLFixture twoLinkFixture = .ok "http://example.com/f1" := by
  refine ⟨by decide, ?_⟩
  rw [discoverFeedURL_first_match pageURLFixture twoLinkFixture (by decide)]
  rfl

/-! ## C2 — ambiguous content types with unsniffable bodies -/

/-- C2: with `Content-Type: application/xml` and a body containing neither
`<rss` nor `<feed`, no case of the inner sniffing switch runs, the pipeline
falls past the switch with both feed and error unset, and crashes
dereferencing the nil feed — it does not return an unsupported-format error
result. -/
theorem parseFeedURL_ambiguous_unsniffable_crashes :
    parseFeedURL worldAmbiguous 1 "http://example.com/feed" = .goPanic ∧
    isMimeType "application/xml" MimeTypesIndeterminate = true ∧
    containsSub "<html></html>" "<feed" = false ∧
    containsSub "<html></html>" "<rss" = false := by
  exact ⟨rfl, rfl, rfl, rfl⟩

/-! ## C5 — the shape of pipeline results -/

/-- C5 counterexample: on an HTTP error status the pipeline's result leaves
the `URL` field empty instead of carrying the requested URL. -/
theorem parseFeedURL_status_error_empty_url_cx :
    parseFeedURL worldStatusError 1 "http://example.com/feed" =
      .result ⟨"", none, some .parseURLStatus⟩ ∧
    ("" : String) ≠ "http://example.com/feed" := by
  refine ⟨rfl, ?_⟩
  decide

/-- C5 (amended): every `FeedResult` the per-URL pipeline returns pairs
exactly one of a feed or an error (never both, never neither); its `URL`
field is the URL whose fetch produced the final outcome — the requested URL
or one reached by following discovered feed links — except in the HTTP
status-error branch, which leaves it empty.  (On ambiguous unsniffable
content the pipeline crashes and returns no result at all; see C2.) -/
theorem parseFeedURL_result_pairing (W : World) (fuel : Nat) :
    ∀ (url : String) (r : FeedResult), parseFeedURL W fuel url = .result r →
      ((∃ f, r.feed = some f ∧ r.err = none) ∨ (r.feed = none ∧ ∃ e, r.err = some e)) ∧
      (r.url = "" ∨ Reaches W url r.url) := by
  induction fuel with
  | zero =>
    intro url r h
    simp [parseFeedURL] at h
  | succ n ih =>
    intro url r h
    rw [parseFeedURL] at h
    cases hfetch : W.fetch url with
    | transportErr =>
      simp only [hfetch, Outcome.result.injEq] at h
      subst h
      exact ⟨Or.inr ⟨rfl, _, rfl⟩, Or.inr (Reaches.refl url)⟩
    | resp resp =>
      simp only [hfetch] at h
      by_cases hstatus : resp.statusIsError = true
      · rw [if_pos hstatus] at h
        simp only [Outcome.result.injEq] at h
        subst h
        exact ⟨Or.inr ⟨rfl, _, rfl⟩, Or.inl rfl⟩
      · rw [if_neg hstatus] at h
        by_cases hct : resp.contentType = ""
        · rw [if_pos hct] at h
          simp only [Outcome.result.injEq] at h
          subst h
          exact ⟨Or.inr ⟨rfl, _, rfl⟩, Or.inr (Reaches.refl url)⟩
        · rw [if_neg hct] at h
          by_cases hrss : isMimeType resp.contentType MimeTypesRSS = true
          · rw [if_pos hrss] at h
            obtain ⟨hurl, hpair⟩ := finishParse_result _ _ _ h
            exact ⟨hpair, Or.inr (by rw [hurl]; exact Reaches.refl url)⟩
          · rw [if_neg hrss] at h
            by_cases hatom : isMimeType resp.contentType MimeTypesAtom = true
            · rw [if_pos hatom] at h
              obtain ⟨hurl, hpair⟩ := finishParse_result _ _ _ h
              exact ⟨hpair, Or.inr (by rw [hurl]; exact Reaches.refl url)⟩
            · rw [if_neg hatom] at h
              by_cases hind : isMimeType resp.contentType MimeTypesIndeterminate = true
              · rw [if_pos hind] at h
                by_cases hfeed : containsSub resp.body "<feed" = true
                · rw [if_pos hfeed] at h
                  cases hdec : newFeedFromDecoded W.oracles ((W.decodeAtom resp.body).map .atom) with
                  | error e =>
                    simp only [hdec, errorsIsInvalidValidation, Bool.false_eq_true, if_false] at h
                    obtain ⟨hurl, hpair⟩ := finishParse_result _ _ _ h
                    exact ⟨hpair, Or.inr (by rw [hurl]; exact Reaches.refl url)⟩
                  | ok feed =>
                    simp only [hdec] at h
                    obtain ⟨hurl, hpair⟩ := finishParse_result _ _ _ h
                    exact ⟨hpair, Or.inr (by rw [hurl]; exact Reaches.refl url)⟩
                · rw [if_neg hfeed] at h
                  by_cases hrss2 : containsSub resp.body "<rss" = true
                  · rw [if_pos hrss2] at h
                    cases hdec : newFeedFromDecoded W.oracles ((W.decodeRss resp.body).map .rss) with
                    | error e =>
                      simp only [hdec, errorsIsInvalidValidation, Bool.false_eq_true, if_false] at h
                      obtain ⟨hurl, hpair⟩ := finishParse_result _ _ _ h
                      exact ⟨hpair, Or.inr (by rw [hurl]; exact Reaches.refl url)⟩
                    | ok feed =>
                      simp only [hdec] at h
                      obtain ⟨hurl, hpair⟩ := finishParse_result _ _ _ h
                      exact ⟨hpair, Or.inr (by rw [hurl]; exact Reaches.refl url)⟩
                  · rw [if_neg hrss2] at h
                    cases h
              · rw [if_neg hind] at h
                by_cases hjson : isMimeType resp.contentType MimeTypesJSONFeed = true
                · rw [if_pos hjson] at h
                  obtain ⟨hurl, hpair⟩ := finishParse_result _ _ _ h
                  exact ⟨hpair, Or.inr (by rw [hurl]; exact Reaches.refl url)⟩
                · rw [if_neg hjson] at h
                  by_cases hhtml : isMimeType resp.contentType MimeTypesHTML = true
                  · rw [if_pos hhtml] at h
                    cases hdisc : discoverFeedURLTokens url (W.tokenize resp.body) with
                    | ok newURL =>
                      simp only [hdisc] at h
                      by_cases hne : newURL = ""
                      · rw [if_neg (fun hc => hc hne)] at h
                        simp only [Outcome.result.injEq] at h
                        subst h
                        exact ⟨Or.inr ⟨rfl, _, rfl⟩, Or.inr (Reaches.refl url)⟩
                      · rw [if_pos hne] at h
                        obtain ⟨hpair, hreach⟩ := ih newURL r h
                        refine ⟨hpair, ?_⟩
                        rcases hreach with h0 | hre
                        · exact Or.inl h0
                        · refine Or.inr (Reaches.step ?_ hre)
                          unfold htmlRedirect
                          simp only [hfetch]
                          rw [if_neg hstatus, if_neg hct, if_neg hrss, if_neg hatom,
                            if_neg hind, if_neg hjson, if_pos hhtml, hdisc]
                          simp [hne]
                    | error e =>
                      simp only [hdisc] at h
                      cases e with
                      | tokenErr =>
                        simp only [Outcome.result.injEq] at h
                        subst h
                        exact ⟨Or.inr ⟨rfl, _, rfl⟩, Or.inr (Reaches.refl url)⟩
                      | urlParseErr v =>
                        simp only [Outcome.result.injEq] at h
                        subst h
                        exact ⟨Or.inr ⟨rfl, _, rfl⟩, Or.inr (Reaches.refl url)⟩
                      | pageParseErr =>
                        simp only [Outcome.result.injEq] at h
                        subst h
                        exact ⟨Or.inr ⟨rfl, _, rfl⟩, Or.inr (Reaches.refl url)⟩
                      | panicIndexOutOfRange => cases h
                  · rw [if_neg hhtml] at h
                    simp only [Outcome.result.injEq] at h
                    subst h
                    exact ⟨Or.inr ⟨rfl, _, rfl⟩, Or.inr (Reaches.refl url)⟩


/-- C5 witness: the pairing and URL facts at a concrete transport-error
run. -/
theorem parseFeedURL_result_pairing_witness :
    parseFeedURL worldTransportError 1 "http://e.invalid/feed" =
      .result transportResultFixture ∧
    (((∃ f, transportResultFixture.feed = some f ∧ transportResultFixture.err = none) ∨
      (transportResultFixture.feed = none ∧ ∃ e, transportResultFixture.err = some e)) ∧
     (transportResultFixture.url = "" ∨
      Reaches worldTransportError "http://e.invalid/feed" transportResultFixture.url)) :=
  ⟨rfl,
   parseFeedURL_result_pairing worldTransportError 1 "http://e.invalid/feed"
     transportResultFixture rfl⟩
